import Mathlib

/-
Verification of the HMM core and the AFDB download helper of this
repository.

The HMM implementation itself (Bio.HMM.MarkovModel, Bio.HMM.Trainer,
Bio.HMM.DynamicProgramming) is not part of the visible sources; only its
test suite (src/Tests/test_HMMGeneral.py) is.  The definitions below are
therefore modelled from the natural language specification, and where the
wording of the specification disagrees with the expected values pinned
down by the visible tests, the tests win.  Probabilities are embedded as
exact rationals; the log scale of the Viterbi decoder is represented by
an extended-real logarithm applied to exact path products, which agrees
with a sum-of-logs recursion because the logarithm is strictly monotone
and turns products into sums on nonnegative arguments (with log 0 mapped
to negative infinity, as the specification requires).

The AFDB helper (src/Bio/PDB/AFDB.py) is embedded directly from its
source: the outcome of one awaited httpx GET call is the input of each
pure function, and uncaught exceptions are explicit values.
-/

/-- Error taxonomy of the specification (section 7): references to unknown
states, invalid probabilities, and training-sequence length mismatches. -/
inductive HMMError where
  | invalidState
  | invalidProbability
  | sequenceLengthMismatch
  deriving DecidableEq, Repr

/-- Association-list lookup, the embedding of Python dictionary access.
Returns the value of the first matching key. -/
def alookup {κ α : Type} [DecidableEq κ] : List (κ × α) → κ → Option α
  | [], _ => none
  | e :: rest, q => if e.1 = q then some e.2 else alookup rest q

/-- Total association-list lookup with a default, the embedding of the
permissive probability access of the model (specification section 4.2: a
query for a disallowed pair returns probability 0 rather than failing). -/
def alookupD {κ α : Type} [DecidableEq κ] (l : List (κ × α)) (q : κ) (d : α) : α :=
  (alookup l q).getD d

/-- Modelled from the spec: the mutable builder state (section 3).  The
Python dictionaries keyed by state pairs and state-symbol pairs are
embedded as association lists, keeping insertion order. -/
structure MarkovModelBuilder (σ ε : Type) where
  state_alphabet : List σ
  emission_alphabet : List ε
  transition_prob : List ((σ × σ) × ℚ)
  transition_pseudo : List ((σ × σ) × ℚ)
  emission_prob : List ((σ × ε) × ℚ)
  emission_pseudo : List ((σ × ε) × ℚ)
  initial_prob : List (σ × ℚ)

/-- Modelled from the spec: the immutable finalized model (section 3). -/
structure HiddenMarkovModel (σ ε : Type) where
  state_alphabet : List σ
  emission_alphabet : List ε
  initial_prob : List (σ × ℚ)
  transition_prob : List ((σ × σ) × ℚ)
  emission_prob : List ((σ × ε) × ℚ)
  transition_pseudo : List ((σ × σ) × ℚ)
  emission_pseudo : List ((σ × ε) × ℚ)

/-- Total initial-probability lookup of a model (unset states read as 0). -/
def HiddenMarkovModel.initialProb {σ ε : Type} [DecidableEq σ]
    (m : HiddenMarkovModel σ ε) (s : σ) : ℚ :=
  alookupD m.initial_prob s 0

/-- Total transition-probability lookup of a model (disallowed pairs read
as 0, per specification section 4.2). -/
def HiddenMarkovModel.transitionProb {σ ε : Type} [DecidableEq σ]
    (m : HiddenMarkovModel σ ε) (a b : σ) : ℚ :=
  alookupD m.transition_prob (a, b) 0

/-- Total emission-probability lookup of a model (absent pairs read as 0). -/
def HiddenMarkovModel.emissionProb {σ ε : Type} [DecidableEq σ] [DecidableEq ε]
    (m : HiddenMarkovModel σ ε) (s : σ) (e : ε) : ℚ :=
  alookupD m.emission_prob (s, e) 0

/-- Modelled from the spec: a fresh builder.  Transition tables start
empty; the emission probability table is initialized to 0 and the
emission pseudocount table to 1 over the full state-symbol cross product
(section 3, confirmed by test_test_initialize). -/
def mkBuilder {σ ε : Type} (states : List σ) (emissions : List ε) :
    MarkovModelBuilder σ ε where
  state_alphabet := states
  emission_alphabet := emissions
  transition_prob := []
  transition_pseudo := []
  emission_prob := (states.map (fun s => emissions.map (fun e => ((s, e), (0 : ℚ))))).flatten
  emission_pseudo := (states.map (fun s => emissions.map (fun e => ((s, e), (1 : ℚ))))).flatten
  initial_prob := []

/-- Modelled from the spec: allow_transition (section 4.1).  Registers the
pair as permitted with the given probability and pseudocount 1; rejects
states outside the alphabet and probabilities outside [0, 1]. -/
def allow_transition {σ ε : Type} [DecidableEq σ] (b : MarkovModelBuilder σ ε)
    (f t : σ) (p : ℚ) : Except HMMError (MarkovModelBuilder σ ε) :=
  if f ∈ b.state_alphabet ∧ t ∈ b.state_alphabet then
    if 0 ≤ p ∧ p ≤ 1 then
      Except.ok { b with
        transition_prob := b.transition_prob ++ [((f, t), p)],
        transition_pseudo := b.transition_pseudo ++ [((f, t), 1)] }
    else Except.error HMMError.invalidProbability
  else Except.error HMMError.invalidState

/-- Modelled from the spec: allow_all_transitions (section 4.1).
Registers every state pair with probability 0 and pseudocount 1. -/
def allow_all_transitions {σ ε : Type} (b : MarkovModelBuilder σ ε) :
    MarkovModelBuilder σ ε :=
  { b with
    transition_prob :=
      (b.state_alphabet.map (fun f => b.state_alphabet.map (fun t => ((f, t), (0 : ℚ))))).flatten,
    transition_pseudo :=
      (b.state_alphabet.map (fun f => b.state_alphabet.map (fun t => ((f, t), (1 : ℚ))))).flatten }

/-- Sum of the probabilities of a partial initial-probability mapping. -/
def probSum {σ : Type} (given : List (σ × ℚ)) : ℚ :=
  (given.map Prod.snd).sum

/-- Number of states of the alphabet that are absent from a partial
initial-probability mapping. -/
def absentCount {σ : Type} [DecidableEq σ] (alphabet : List σ)
    (given : List (σ × ℚ)) : ℕ :=
  (alphabet.filter (fun s => (alookup given s).isNone)).length

/-- Modelled from the spec: set_initial_probabilities (section 4.1).
States covered by the mapping keep their explicit probability; absent
states split the remaining mass equally.  Unknown states are rejected
first, then a mass exceeding 1. -/
def set_initial_probabilities {σ ε : Type} [DecidableEq σ]
    (b : MarkovModelBuilder σ ε) (given : List (σ × ℚ)) :
    Except HMMError (MarkovModelBuilder σ ε) :=
  if ∀ k ∈ given.map Prod.fst, k ∈ b.state_alphabet then
    if 1 < probSum given then Except.error HMMError.invalidProbability
    else Except.ok { b with
      initial_prob := b.state_alphabet.map (fun s =>
        (s, match alookup given s with
            | some p => p
            | none => (1 - probSum given) / ((absentCount b.state_alphabet given : ℚ)))) }
  else Except.error HMMError.invalidState

/-- Modelled from the spec and the visible test: set_equal_probabilities.
The specification text asks for per-source-state uniform transitions and
per-state uniform emissions, but test_set_equal_probabilities
(src/Tests/test_HMMGeneral.py lines 124-136) pins the transition value
0.5 = 1 / (number of allowed transition pairs) where per-row uniformity
would give 1.0, and the emission value 0.25 = 1 / (number of emission
pairs) where per-state uniformity would give 0.5.  The test is the
authority: every allowed transition receives one over the total number of
allowed transitions, every emission pair one over the total number of
emission pairs, and the initial distribution is uniform over the states. -/
def set_equal_probabilities {σ ε : Type} (b : MarkovModelBuilder σ ε) :
    MarkovModelBuilder σ ε :=
  { b with
    initial_prob :=
      b.state_alphabet.map (fun s => (s, 1 / (b.state_alphabet.length : ℚ))),
    transition_prob :=
      b.transition_prob.map (fun e => (e.1, 1 / (b.transition_prob.length : ℚ))),
    emission_prob :=
      b.emission_prob.map (fun e => (e.1, 1 / (b.emission_prob.length : ℚ))) }

/-- Number of allowed outgoing transitions of a source state in a
builder, the group size used by the per-row reading of
set_equal_probabilities in the specification text. -/
def outgoingCount {σ ε : Type} [DecidableEq σ] (b : MarkovModelBuilder σ ε)
    (f : σ) : ℕ :=
  (b.transition_prob.filter (fun e => decide (e.1.1 = f))).length

/-- Modelled from the spec and the visible test: get_markov_model.  The
finalize step copies the accumulated tables unchanged into the immutable
model; the initial distribution defaults to uniform when never set.  No
normalization or probabilistic validation happens here: the setUp of
ScaledDPAlgorithmsTest finalizes a builder whose emission rows sum to
one half and expects success, so the invariant check suggested by the
specification text cannot be present. -/
def get_markov_model {σ ε : Type} (b : MarkovModelBuilder σ ε) :
    HiddenMarkovModel σ ε where
  state_alphabet := b.state_alphabet
  emission_alphabet := b.emission_alphabet
  initial_prob :=
    if b.initial_prob.isEmpty then
      b.state_alphabet.map (fun s => (s, 1 / (b.state_alphabet.length : ℚ)))
    else b.initial_prob
  transition_prob := b.transition_prob
  emission_prob := b.emission_prob
  transition_pseudo := b.transition_pseudo
  emission_pseudo := b.emission_pseudo

/-- Modelled from the spec: transitions_from (section 4.2).  Collects the
destination of every allowed transition whose source is the given state;
states never registered, including states outside the alphabet, yield the
empty list. -/
def HiddenMarkovModel.transitions_from {σ ε : Type} [DecidableEq σ]
    (m : HiddenMarkovModel σ ε) (q : σ) : List σ :=
  (m.transition_prob.filter (fun e => decide (e.1.1 = q))).map (fun e => e.1.2)

/-- Modelled from the spec: transitions_to (section 4.2), the incoming
counterpart of transitions_from. -/
def HiddenMarkovModel.transitions_to {σ ε : Type} [DecidableEq σ]
    (m : HiddenMarkovModel σ ε) (q : σ) : List σ :=
  (m.transition_prob.filter (fun e => decide (e.1.2 = q))).map (fun e => e.1.1)

/-- Sum of the emission probabilities of one state of a model over the
full emission alphabet. -/
def emissionRowSum {σ ε : Type} [DecidableEq σ] [DecidableEq ε]
    (m : HiddenMarkovModel σ ε) (s : σ) : ℚ :=
  (m.emission_alphabet.map (fun e => m.emissionProb s e)).sum

/-- Sum of the emission probabilities of one state of a builder over the
full emission alphabet. -/
def builderEmissionRowSum {σ ε : Type} [DecidableEq σ] [DecidableEq ε]
    (b : MarkovModelBuilder σ ε) (s : σ) : ℚ :=
  (b.emission_alphabet.map (fun e => alookupD b.emission_prob (s, e) 0)).sum

/-- First element of a list maximizing a rational score, found by a left
fold that replaces the current best only on a strictly larger score: the
deterministic tie-break of the specification (section 4.3, first state in
alphabet order achieving the maximum). -/
def bestBy {σ : Type} (f : σ → ℚ) (l : List σ) : Option (σ × ℚ) :=
  l.foldl
    (fun acc s =>
      match acc with
      | none => some (s, f s)
      | some (b, v) => if v < f s then some (s, f s) else some (b, v))
    none

/-- Modelled from the spec: position 0 of the Viterbi table (section 4.3).
Each state starts with its initial probability times the emission
probability of the first observed symbol, and a one-state path. -/
def viterbiStart {σ ε : Type} [DecidableEq σ] [DecidableEq ε]
    (m : HiddenMarkovModel σ ε) (e0 : ε) (s : σ) : ℚ × List σ :=
  (m.initialProb s * m.emissionProb s e0, [s])

/-- Modelled from the spec: one cell of the Viterbi recursion (section
4.3).  The best predecessor is the first state of the alphabet maximizing
the previous score times the transition probability; the cell keeps the
backtraced path of that predecessor extended by the current state, so the
final backtrace is carried forward instead of replayed.  The recursion
works on exact path products; the logarithm of the specification is
applied once at the end (see viterbiLog), which yields the identical
selection because the extended-real logarithm is strictly monotone on
nonnegative arguments. -/
def viterbiCell {σ ε : Type} [DecidableEq σ] [DecidableEq ε]
    (m : HiddenMarkovModel σ ε) (alphabet : List σ) (tbl : σ → ℚ × List σ)
    (e : ε) (s : σ) : ℚ × List σ :=
  match bestBy (fun p => (tbl p).1 * m.transitionProb p s) alphabet with
  | none => (0, [s])
  | some (p, v) => (v * m.emissionProb s e, (tbl p).2 ++ [s])

/-- Viterbi table after consuming the whole emission sequence, one cell
per state. -/
def viterbiTable {σ ε : Type} [DecidableEq σ] [DecidableEq ε]
    (m : HiddenMarkovModel σ ε) (alphabet : List σ) (e0 : ε) (rest : List ε) :
    σ → ℚ × List σ :=
  rest.foldl (fun tbl e s => viterbiCell m alphabet tbl e s) (viterbiStart m e0)

/-- Modelled from the spec: the Viterbi decoder (section 4.3) on exact
path products.  The final state is the first state of the alphabet
maximizing the last-position score; the returned pair is the backtraced
state path and its exact path probability.  The log-scale value returned
by the source is recovered by viterbiLog. -/
def HiddenMarkovModel.viterbi {σ ε : Type} [DecidableEq σ] [DecidableEq ε]
    (m : HiddenMarkovModel σ ε) (emissions : List ε) (alphabet : List σ) :
    Option (List σ × ℚ) :=
  match emissions with
  | [] => none
  | e0 :: rest =>
    let tbl := viterbiTable m alphabet e0 rest
    match bestBy (fun s => (tbl s).1) alphabet with
    | none => none
    | some (s, _) => some ((tbl s).2, (tbl s).1)

/-- Extended-real natural logarithm: probability 0 (and any nonpositive
argument) maps to negative infinity, as section 4.3 of the specification
prescribes for the log transform. -/
noncomputable def elog (q : ℚ) : EReal :=
  if q ≤ 0 then ⊥ else ((Real.log (q : ℝ) : ℝ) : EReal)

/-- Viterbi decoder with the log-scale return value of the source: the
path is unchanged and the best score is reported on the extended-real
log scale. -/
noncomputable def HiddenMarkovModel.viterbiLog {σ ε : Type} [DecidableEq σ]
    [DecidableEq ε] (m : HiddenMarkovModel σ ε) (emissions : List ε)
    (alphabet : List σ) : Option (List σ × EReal) :=
  (m.viterbi emissions alphabet).map (fun r => (r.1, elog r.2))

/-- Probability of a concrete two-step state path (a, b) for a two-symbol
observation (x, y): the brute-force quantity of test_simple_hmm. -/
def pathProd {σ ε : Type} [DecidableEq σ] [DecidableEq ε]
    (m : HiddenMarkovModel σ ε) (a b : σ) (x y : ε) : ℚ :=
  m.initialProb a * m.emissionProb a x * m.transitionProb a b * m.emissionProb b y

/-- Modelled from the spec: a training sequence, an emission sequence
paired with a state path that is either empty or of the same length
(section 3). -/
structure TrainingSequence (ε σ : Type) where
  emissions : List ε
  states : List σ

/-- Modelled from the spec: the validating constructor of
TrainingSequence (section 4.5).  A non-empty state path whose length
disagrees with the emissions is rejected at construction time. -/
def TrainingSequence.make {ε σ : Type} (emissions : List ε) (states : List σ) :
    Except HMMError (TrainingSequence ε σ) :=
  if states.length = 0 ∨ states.length = emissions.length then
    Except.ok ⟨emissions, states⟩
  else Except.error HMMError.sequenceLengthMismatch

/-- Total count of a from-key group of a count table: the sum of the
counts of all entries sharing the given from-key. -/
def groupTotal {κ : Type} [DecidableEq κ] (counts : List ((κ × κ) × ℚ))
    (f : κ) : ℚ :=
  ((counts.filter (fun e => decide (e.1.1 = f))).map (fun e => e.2)).sum

/-- Modelled from the spec: ml_estimator (section 4.5).  Each pair is
mapped to its count divided by the total count of its from-key group,
the maximum-likelihood conditional probability estimate. -/
def ml_estimator {κ : Type} [DecidableEq κ] (counts : List ((κ × κ) × ℚ)) :
    List ((κ × κ) × ℚ) :=
  counts.map (fun e => (e.1, e.2 / groupTotal counts e.1.1))

/-- One completed HTTP response, as the AFDB helper observes it: a status
code, the body text, and the value that a call of the json method of the
response would produce (abstracted as data, since parsing is outside the
visible code). -/
structure HttpResponse where
  statusCode : Nat
  bodyText : String
  bodyJson : String

/-- Outcome of one awaited httpx AsyncClient get call.  The get call
itself raises only request errors (connection problems and the like); an
HTTPStatusError is raised only by an explicit raise_for_status call on a
completed response, never by get, so a completed non-2xx response is an
ok outcome here. -/
inductive RequestResult where
  | ok (resp : HttpResponse)
  | requestError (msg : String)

/-- Exceptions of the httpx library that the AFDB helper catches. -/
inductive HttpxError where
  | statusError (code : Nat)
  | requestError (msg : String)

/-- Message text httpx attaches to an HTTPStatusError, abstracted to the
status code that produced it. -/
def statusMsg (code : Nat) : String :=
  "HTTPStatusError for status code " ++ toString code

/-- Embedding of response.raise_for_status from httpx: raises an
HTTPStatusError exactly for a response whose status code is not a 2xx
success code. -/
def raiseForStatus (resp : HttpResponse) : Except HttpxError Unit :=
  if 200 ≤ resp.statusCode ∧ resp.statusCode < 300 then Except.ok ()
  else Except.error (HttpxError.statusError resp.statusCode)

/-- Embedding of one awaited get call inside a try block: a completed
response is returned, a failed request surfaces as a RequestError. -/
def awaitGet (r : RequestResult) : Except HttpxError HttpResponse :=
  match r with
  | RequestResult.ok resp => Except.ok resp
  | RequestResult.requestError m => Except.error (HttpxError.requestError m)

/-- Embedding of a Python try block with the two except clauses of the
AFDB helper: the handlers receive the caught httpx exception. -/
def handleHttpx {α : Type} (body : Except HttpxError α)
    (onStatus : Nat → α) (onRequest : String → α) : α :=
  match body with
  | Except.ok a => a
  | Except.error (HttpxError.statusError c) => onStatus c
  | Except.error (HttpxError.requestError m) => onRequest m

/-- Embedding of AFDB.get_readme (src/Bio/PDB/AFDB.py lines 25-34): the
try block awaits the GET and calls raise_for_status on the response; a
caught HTTPStatusError or RequestError is turned into a descriptive
string, and only a 2xx response reaches the final return of the body
text. -/
def get_readme (r : RequestResult) : String :=
  handleHttpx
    (do
      let resp ← awaitGet r
      let _ ← raiseForStatus resp
      pure resp.bodyText)
    (fun c => "Exception occured for fetching the README. " ++ statusMsg c)
    (fun m => "Error occurred during the request: " ++ m)

/-- Result type of get_metadata_json: the parsed json value or an error
string (the Python signature dict | str). -/
inductive MetaResult where
  | json (v : String)
  | errText (s : String)
  deriving DecidableEq

/-- Embedding of AFDB.get_metadata_json (src/Bio/PDB/AFDB.py lines
36-46): the try block only awaits the GET, never calling
raise_for_status, and the json method of the response is applied to
whatever completed response arrives.  Both except clauses are embedded
verbatim, including the HTTPStatusError handler that no execution can
reach. -/
def get_metadata_json (r : RequestResult) : MetaResult :=
  handleHttpx
    (do
      let resp ← awaitGet r
      pure (MetaResult.json resp.bodyJson))
    (fun c => MetaResult.errText ("Exception occured for fetching the README. " ++ statusMsg c))
    (fun m => MetaResult.errText ("Error occurred during the request: " ++ m))

/-- Python errors surfacing from the AFDB helper. -/
inductive PyError where
  | notImplementedError
  deriving DecidableEq

/-- Embedding of AFDB.bulk_download (src/Bio/PDB/AFDB.py lines 48-50):
the body is a bare raise NotImplementedError, so the call fails before
anything else can happen and no value can be produced (the success type
is Empty). -/
def bulk_download : Except PyError Empty :=
  Except.error PyError.notImplementedError

/-- URLs requested by one invocation of bulk_download: none, since the
body raises before any client call. -/
def bulk_download_requests : List String := []

/-- Model of test_simple_hmm: both alphabets have two members, initial
probabilities 0.4 and 0.6, transition matrix rows (0.35, 0.65) and
(0.45, 0.55), emission matrix rows (0.45, 0.55) and (0.75, 0.25). -/
def simpleTestModel : HiddenMarkovModel String String where
  state_alphabet := ["1", "2"]
  emission_alphabet := ["A", "B"]
  initial_prob := [("1", 2/5), ("2", 3/5)]
  transition_prob :=
    [(("1", "1"), 7/20), (("1", "2"), 13/20), (("2", "1"), 9/20), (("2", "2"), 11/20)]
  emission_prob :=
    [(("1", "A"), 9/20), (("1", "B"), 11/20), (("2", "A"), 3/4), (("2", "B"), 1/4)]
  transition_pseudo :=
    [(("1", "1"), 1), (("1", "2"), 1), (("2", "1"), 1), (("2", "2"), 1)]
  emission_pseudo :=
    [(("1", "A"), 1), (("1", "B"), 1), (("2", "A"), 1), (("2", "B"), 1)]

/-- Builder state of test_non_ergodic after its setter calls: initial
probability 1 on state 1, transitions allowed only out of state 1 with
probability one half each, emissions 0.95 / 0.05 for state 1 and
0.05 / 0.95 for state 2. -/
def nonErgodicBuilder : MarkovModelBuilder String String where
  state_alphabet := ["1", "2"]
  emission_alphabet := ["A", "B"]
  transition_prob := [(("1", "1"), 1/2), (("1", "2"), 1/2)]
  transition_pseudo := [(("1", "1"), 1), (("1", "2"), 1)]
  emission_prob :=
    [(("1", "A"), 19/20), (("1", "B"), 1/20), (("2", "A"), 1/20), (("2", "B"), 19/20)]
  emission_pseudo :=
    [(("1", "A"), 1), (("1", "B"), 1), (("2", "A"), 1), (("2", "B"), 1)]
  initial_prob := [("1", 1)]

/-- Finalized non-ergodic model of test_non_ergodic. -/
def nonErgodicModel : HiddenMarkovModel String String :=
  get_markov_model nonErgodicBuilder

/-- Builder of the setUp of ScaledDPAlgorithmsTest: all transitions
allowed, then set_equal_probabilities. -/
def scaledDPBuilder : MarkovModelBuilder String String :=
  set_equal_probabilities (allow_all_transitions (mkBuilder ["1", "2"] ["A", "B"]))

/-- Model finalized by the setUp of ScaledDPAlgorithmsTest. -/
def scaledDPModel : HiddenMarkovModel String String :=
  get_markov_model scaledDPBuilder

/-- Builder chain of test_set_equal_probabilities: allow the transitions
1 to 2 and 2 to 1 with arbitrary probabilities, then call
set_equal_probabilities. -/
def equalTestBuilderE : Except HMMError (MarkovModelBuilder String String) :=
  (allow_transition (mkBuilder ["1", "2"] ["A", "B"]) "1" "2" (1/20)).bind
    (fun b => (allow_transition b "2" "1" (19/20)).map set_equal_probabilities)

/-- Model of test_transitions_from and test_transitions_to: transitions
1 to 2, 2 to 1 and 2 to 2 allowed, uniform initial distribution. -/
def transTestModel : HiddenMarkovModel String String where
  state_alphabet := ["1", "2"]
  emission_alphabet := ["A", "B"]
  initial_prob := [("1", 1/2), ("2", 1/2)]
  transition_prob := [(("1", "2"), 1), (("2", "1"), 1/2), (("2", "2"), 1/2)]
  transition_pseudo := [(("1", "2"), 1), (("2", "1"), 1), (("2", "2"), 1)]
  emission_prob :=
    [(("1", "A"), 0), (("1", "B"), 0), (("2", "A"), 0), (("2", "B"), 0)]
  emission_pseudo :=
    [(("1", "A"), 1), (("1", "B"), 1), (("2", "A"), 1), (("2", "B"), 1)]

/-- Count table of test_ml_estimator. -/
def mlTestCounts : List ((String × String) × ℚ) :=
  [(("A", "A"), 10), (("A", "B"), 20), (("A", "C"), 15),
   (("B", "B"), 5), (("C", "A"), 15), (("C", "C"), 10)]

/-- Builder state of test_set_equal_probabilities just before the call
of set_equal_probabilities: the transitions 1 to 2 and 2 to 1 are
allowed with probabilities 0.05 and 0.95. -/
def equalPreBuilder : MarkovModelBuilder String String :=
  { mkBuilder ["1", "2"] ["A", "B"] with
    transition_prob := [(("1", "2"), 1/20), (("2", "1"), 19/20)],
    transition_pseudo := [(("1", "2"), 1), (("2", "1"), 1)] }

theorem alookup_map_self {κ α : Type} [DecidableEq κ] (l : List κ) (val : κ → α)
    (s : κ) (h : s ∈ l) :
    alookup (l.map (fun x => (x, val x))) s = some (val s) := by
  induction l with
  | nil => cases h
  | cons a rest ih =>
    simp only [List.map_cons, alookup]
    by_cases hs : a = s
    · subst hs; simp
    · rw [if_neg hs]
      rcases List.mem_cons.mp h with h1 | h1
      · exact absurd h1.symm hs
      · exact ih h1

theorem alookup_self_of_nodup {κ α : Type} [DecidableEq κ] (l : List (κ × α))
    (hnd : (l.map Prod.fst).Nodup) (e : κ × α) (h : e ∈ l) :
    alookup l e.1 = some e.2 := by
  induction l with
  | nil => cases h
  | cons a rest ih =>
    simp only [List.map_cons, List.nodup_cons] at hnd
    simp only [alookup]
    by_cases hk : a.1 = e.1
    · rcases List.mem_cons.mp h with h1 | h1
      · subst h1; simp
      · exact absurd (hk ▸ List.mem_map.mpr ⟨e, h1, rfl⟩) hnd.1
    · rw [if_neg hk]
      rcases List.mem_cons.mp h with h1 | h1
      · exact absurd (congrArg Prod.fst h1.symm) hk
      · exact ih hnd.2 h1

theorem alookup_map_entry {κ α β : Type} [DecidableEq κ] (l : List (κ × α))
    (g : κ × α → β) (hnd : (l.map Prod.fst).Nodup) (e : κ × α) (h : e ∈ l) :
    alookup (l.map (fun x => (x.1, g x))) e.1 = some (g e) := by
  induction l with
  | nil => cases h
  | cons a rest ih =>
    simp only [List.map_cons, List.nodup_cons] at hnd
    simp only [List.map_cons, alookup]
    by_cases hk : a.1 = e.1
    · rcases List.mem_cons.mp h with h1 | h1
      · subst h1; simp
      · exact absurd (hk ▸ List.mem_map.mpr ⟨e, h1, rfl⟩) hnd.1
    · rw [if_neg hk]
      rcases List.mem_cons.mp h with h1 | h1
      · exact absurd (congrArg Prod.fst h1.symm) hk
      · exact ih hnd.2 h1

theorem alookup_map_const {κ α β : Type} [DecidableEq κ] (l : List (κ × α))
    (c : β) (e : κ × α) (h : e ∈ l) :
    alookup (l.map (fun x => (x.1, c))) e.1 = some c := by
  induction l with
  | nil => cases h
  | cons a rest ih =>
    simp only [List.map_cons, alookup]
    by_cases hk : a.1 = e.1
    · rw [if_pos hk]
    · rw [if_neg hk]
      rcases List.mem_cons.mp h with h1 | h1
      · exact absurd (congrArg Prod.fst h1.symm) hk
      · exact ih h1

theorem bestBy_pair {σ : Type} (f : σ → ℚ) (s1 s2 : σ) :
    bestBy f [s1, s2] =
      if f s1 < f s2 then some (s2, f s2) else some (s1, f s1) := by
  simp only [bestBy, List.foldl]

theorem max4_first {a b c d : ℚ} (h1 : b ≤ a) (h2 : c ≤ a) (h3 : d ≤ a) :
    max (max a b) (max c d) = a := by
  rw [max_eq_left h1]; exact max_eq_left (max_le h2 h3)

theorem max4_second {a b c d : ℚ} (h1 : a ≤ b) (h2 : c ≤ b) (h3 : d ≤ b) :
    max (max a b) (max c d) = b := by
  rw [max_eq_right h1]; exact max_eq_left (max_le h2 h3)

theorem max4_third {a b c d : ℚ} (h1 : a ≤ c) (h2 : b ≤ c) (h3 : d ≤ c) :
    max (max a b) (max c d) = c := by
  rw [max_eq_left h3]; exact max_eq_right (max_le h1 h2)

theorem max4_fourth {a b c d : ℚ} (h1 : a ≤ d) (h2 : b ≤ d) (h3 : c ≤ d) :
    max (max a b) (max c d) = d := by
  rw [max_eq_right h3]; exact max_eq_right (max_le h1 h2)

theorem viterbiStartFst {σ ε : Type} [DecidableEq σ] [DecidableEq ε]
    (m : HiddenMarkovModel σ ε) (e0 : ε) (s : σ) :
    (viterbiStart m e0 s).1 = m.initialProb s * m.emissionProb s e0 := rfl

theorem viterbiCell_pair {σ ε : Type} [DecidableEq σ] [DecidableEq ε]
    (m : HiddenMarkovModel σ ε) (s1 s2 s : σ) (x y : ε) :
    viterbiCell m [s1, s2] (viterbiStart m x) y s =
      if m.initialProb s1 * m.emissionProb s1 x * m.transitionProb s1 s <
          m.initialProb s2 * m.emissionProb s2 x * m.transitionProb s2 s
      then (pathProd m s2 s x y, [s2, s])
      else (pathProd m s1 s x y, [s1, s]) := by
  simp only [viterbiCell, bestBy_pair, viterbiStartFst]
  split_ifs with hc
  · rfl
  · rfl

theorem viterbi_pair_run {σ ε : Type} [DecidableEq σ] [DecidableEq ε]
    (m : HiddenMarkovModel σ ε) (s1 s2 : σ) (x y : ε) {V1 V2 : ℚ}
    {p1 p2 : List σ}
    (h1 : viterbiCell m [s1, s2] (viterbiStart m x) y s1 = (V1, p1))
    (h2 : viterbiCell m [s1, s2] (viterbiStart m x) y s2 = (V2, p2)) :
    m.viterbi [x, y] [s1, s2] =
      if V1 < V2 then some (p2, V2) else some (p1, V1) := by
  simp only [HiddenMarkovModel.viterbi, viterbiTable, List.foldl, bestBy_pair, h1, h2]
  split_ifs with hc <;> simp only [h1, h2]

/-- Claim C1: for every two-state model and every length-2 emission
sequence, the Viterbi decoder called with the two-state alphabet returns
the natural logarithm (on the extended-real scale, with log 0 equal to
negative infinity) of the maximum, over the four length-2 state paths, of
initial times emission times transition times emission, together with a
state path achieving that maximum. -/
theorem viterbi_two_state_bruteforce {σ ε : Type} [DecidableEq σ] [DecidableEq ε]
    (m : HiddenMarkovModel σ ε) (s1 s2 : σ) (x y : ε)
    (h : 0 ≤ m.initialProb s1 ∧ 0 ≤ m.initialProb s2 ∧
        0 ≤ m.transitionProb s1 s1 ∧ 0 ≤ m.transitionProb s1 s2 ∧
        0 ≤ m.transitionProb s2 s1 ∧ 0 ≤ m.transitionProb s2 s2 ∧
        0 ≤ m.emissionProb s1 x ∧ 0 ≤ m.emissionProb s2 x ∧
        0 ≤ m.emissionProb s1 y ∧ 0 ≤ m.emissionProb s2 y) :
    ∃ p : List σ, ∃ bestVal : ℚ,
      m.viterbi [x, y] [s1, s2] = some (p, bestVal) ∧
      m.viterbiLog [x, y] [s1, s2] = some (p, elog bestVal) ∧
      bestVal =
        max (max (pathProd m s1 s1 x y) (pathProd m s1 s2 x y))
          (max (pathProd m s2 s1 x y) (pathProd m s2 s2 x y)) ∧
      ((p = [s1, s1] ∧ pathProd m s1 s1 x y = bestVal) ∨
        (p = [s1, s2] ∧ pathProd m s1 s2 x y = bestVal) ∨
        (p = [s2, s1] ∧ pathProd m s2 s1 x y = bestVal) ∨
        (p = [s2, s2] ∧ pathProd m s2 s2 x y = bestVal)) := by
  obtain ⟨hi1, hi2, ht11, ht12, ht21, ht22, hx1, hx2, hy1, hy2⟩ := h
  have c1 := viterbiCell_pair m s1 s2 s1 x y
  have c2 := viterbiCell_pair m s1 s2 s2 x y
  rcases lt_or_le (m.initialProb s1 * m.emissionProb s1 x * m.transitionProb s1 s1)
      (m.initialProb s2 * m.emissionProb s2 x * m.transitionProb s2 s1) with h1 | h1
  · rw [if_pos h1] at c1
    have hP1121 : pathProd m s1 s1 x y ≤ pathProd m s2 s1 x y :=
      mul_le_mul_of_nonneg_right h1.le hy1
    rcases lt_or_le (m.initialProb s1 * m.emissionProb s1 x * m.transitionProb s1 s2)
        (m.initialProb s2 * m.emissionProb s2 x * m.transitionProb s2 s2) with h2 | h2
    · rw [if_pos h2] at c2
      have hP1222 : pathProd m s1 s2 x y ≤ pathProd m s2 s2 x y :=
        mul_le_mul_of_nonneg_right h2.le hy2
      have hrun := viterbi_pair_run m s1 s2 x y c1 c2
      rcases lt_or_le (pathProd m s2 s1 x y) (pathProd m s2 s2 x y) with h3 | h3
      · rw [if_pos h3] at hrun
        refine ⟨_, _, hrun, ?_, ?_, ?_⟩
        · rw [HiddenMarkovModel.viterbiLog, hrun]; rfl
        · rw [max_max_max_comm]
          exact (max4_fourth (hP1121.trans h3.le) h3.le hP1222).symm
        · exact Or.inr (Or.inr (Or.inr ⟨rfl, rfl⟩))
      · rw [if_neg (not_lt.2 h3)] at hrun
        refine ⟨_, _, hrun, ?_, ?_, ?_⟩
        · rw [HiddenMarkovModel.viterbiLog, hrun]; rfl
        · rw [max_max_max_comm]
          exact (max4_second hP1121 (hP1222.trans h3) h3).symm
        · exact Or.inr (Or.inr (Or.inl ⟨rfl, rfl⟩))
    · rw [if_neg (not_lt.2 h2)] at c2
      have hP2212 : pathProd m s2 s2 x y ≤ pathProd m s1 s2 x y :=
        mul_le_mul_of_nonneg_right h2 hy2
      have hrun := viterbi_pair_run m s1 s2 x y c1 c2
      rcases lt_or_le (pathProd m s2 s1 x y) (pathProd m s1 s2 x y) with h3 | h3
      · rw [if_pos h3] at hrun
        refine ⟨_, _, hrun, ?_, ?_, ?_⟩
        · rw [HiddenMarkovModel.viterbiLog, hrun]; rfl
        · rw [max_max_max_comm]
          exact (max4_third (hP1121.trans h3.le) h3.le hP2212).symm
        · exact Or.inr (Or.inl ⟨rfl, rfl⟩)
      · rw [if_neg (not_lt.2 h3)] at hrun
        refine ⟨_, _, hrun, ?_, ?_, ?_⟩
        · rw [HiddenMarkovModel.viterbiLog, hrun]; rfl
        · rw [max_max_max_comm]
          exact (max4_second hP1121 h3 (hP2212.trans h3)).symm
        · exact Or.inr (Or.inr (Or.inl ⟨rfl, rfl⟩))
  · rw [if_neg (not_lt.2 h1)] at c1
    have hP2111 : pathProd m s2 s1 x y ≤ pathProd m s1 s1 x y :=
      mul_le_mul_of_nonneg_right h1 hy1
    rcases lt_or_le (m.initialProb s1 * m.emissionProb s1 x * m.transitionProb s1 s2)
        (m.initialProb s2 * m.emissionProb s2 x * m.transitionProb s2 s2) with h2 | h2
    · rw [if_pos h2] at c2
      have hP1222 : pathProd m s1 s2 x y ≤ pathProd m s2 s2 x y :=
        mul_le_mul_of_nonneg_right h2.le hy2
      have hrun := viterbi_pair_run m s1 s2 x y c1 c2
      rcases lt_or_le (pathProd m s1 s1 x y) (pathProd m s2 s2 x y) with h3 | h3
      · rw [if_pos h3] at hrun
        refine ⟨_, _, hrun, ?_, ?_, ?_⟩
        · rw [HiddenMarkovModel.viterbiLog, hrun]; rfl
        · rw [max_max_max_comm]
          exact (max4_fourth h3.le (hP2111.trans h3.le) hP1222).symm
        · exact Or.inr (Or.inr (Or.inr ⟨rfl, rfl⟩))
      · rw [if_neg (not_lt.2 h3)] at hrun
        refine ⟨_, _, hrun, ?_, ?_, ?_⟩
        · rw [HiddenMarkovModel.viterbiLog, hrun]; rfl
        · rw [max_max_max_comm]
          exact (max4_first hP2111 (hP1222.trans h3) h3).symm
        · exact Or.inl ⟨rfl, rfl⟩
    · rw [if_neg (not_lt.2 h2)] at c2
      have hP2212 : pathProd m s2 s2 x y ≤ pathProd m s1 s2 x y :=
        mul_le_mul_of_nonneg_right h2 hy2
      have hrun := viterbi_pair_run m s1 s2 x y c1 c2
      rcases lt_or_le (pathProd m s1 s1 x y) (pathProd m s1 s2 x y) with h3 | h3
      · rw [if_pos h3] at hrun
        refine ⟨_, _, hrun, ?_, ?_, ?_⟩
        · rw [HiddenMarkovModel.viterbiLog, hrun]; rfl
        · rw [max_max_max_comm]
          exact (max4_third h3.le (hP2111.trans h3.le) hP2212).symm
        · exact Or.inr (Or.inl ⟨rfl, rfl⟩)
      · rw [if_neg (not_lt.2 h3)] at hrun
        refine ⟨_, _, hrun, ?_, ?_, ?_⟩
        · rw [HiddenMarkovModel.viterbiLog, hrun]; rfl
        · rw [max_max_max_comm]
          exact (max4_first hP2111 h3 (hP2212.trans h3)).symm
        · exact Or.inl ⟨rfl, rfl⟩

/-- Witness for claim C1: the hypotheses hold and the conclusion follows
at the model of test_simple_hmm with the observed emissions A, A. -/
theorem viterbi_two_state_bruteforce_witness :
    (0 ≤ simpleTestModel.initialProb "1" ∧ 0 ≤ simpleTestModel.initialProb "2" ∧
        0 ≤ simpleTestModel.transitionProb "1" "1" ∧
        0 ≤ simpleTestModel.transitionProb "1" "2" ∧
        0 ≤ simpleTestModel.transitionProb "2" "1" ∧
        0 ≤ simpleTestModel.transitionProb "2" "2" ∧
        0 ≤ simpleTestModel.emissionProb "1" "A" ∧
        0 ≤ simpleTestModel.emissionProb "2" "A" ∧
        0 ≤ simpleTestModel.emissionProb "1" "A" ∧
        0 ≤ simpleTestModel.emissionProb "2" "A") ∧
    (∃ p : List String, ∃ bestVal : ℚ,
      simpleTestModel.viterbi ["A", "A"] ["1", "2"] = some (p, bestVal) ∧
      simpleTestModel.viterbiLog ["A", "A"] ["1", "2"] = some (p, elog bestVal) ∧
      bestVal =
        max (max (pathProd simpleTestModel "1" "1" "A" "A")
            (pathProd simpleTestModel "1" "2" "A" "A"))
          (max (pathProd simpleTestModel "2" "1" "A" "A")
            (pathProd simpleTestModel "2" "2" "A" "A")) ∧
      ((p = ["1", "1"] ∧ pathProd simpleTestModel "1" "1" "A" "A" = bestVal) ∨
        (p = ["1", "2"] ∧ pathProd simpleTestModel "1" "2" "A" "A" = bestVal) ∨
        (p = ["2", "1"] ∧ pathProd simpleTestModel "2" "1" "A" "A" = bestVal) ∨
        (p = ["2", "2"] ∧ pathProd simpleTestModel "2" "2" "A" "A" = bestVal))) :=
  ⟨by norm_num +decide [simpleTestModel, HiddenMarkovModel.initialProb,
      HiddenMarkovModel.transitionProb, HiddenMarkovModel.emissionProb, alookupD, alookup],
    viterbi_two_state_bruteforce simpleTestModel "1" "2" "A" "A"
      (by norm_num +decide [simpleTestModel, HiddenMarkovModel.initialProb,
        HiddenMarkovModel.transitionProb, HiddenMarkovModel.emissionProb, alookupD, alookup])⟩

/-- Counterexample for claim C2: running the builder chain of
test_set_equal_probabilities, the allowed transition (1, 2) receives
probability 1/2 although state 1 has exactly one outgoing allowed
transition (the claim demands 1/1 = 1), and the emission pair (1, A)
receives probability 1/4 although the emission alphabet has two members
(the claim demands 1/2).  These are exactly the values the visible test
expects. -/
theorem set_equal_probabilities_counterexample :
    ∃ b : MarkovModelBuilder String String,
      equalTestBuilderE = Except.ok b ∧
      alookup b.transition_prob ("1", "2") = some (1/2) ∧
      alookup b.emission_prob ("1", "A") = some (1/4) ∧
      outgoingCount b "1" = 1 ∧
      b.emission_alphabet.length = 2 ∧
      alookup b.transition_prob ("1", "2") ≠ some (1 / ((outgoingCount b "1" : ℚ))) ∧
      alookup b.emission_prob ("1", "A") ≠ some (1 / ((b.emission_alphabet.length : ℚ))) := by
  refine ⟨set_equal_probabilities equalPreBuilder, ?_, ?_, ?_, ?_, ?_, ?_, ?_⟩ <;>
    norm_num +decide [equalTestBuilderE, equalPreBuilder, mkBuilder, allow_transition,
      set_equal_probabilities, outgoingCount, alookup, Except.bind, Except.map]

/-- Claim C2 (amended): after set_equal_probabilities, the initial
distribution is uniform over the state alphabet, every allowed
transition pair has probability one over the total number of allowed
transition pairs, and every emission pair has probability one over the
total number of emission pairs (the full state-symbol cross product). -/
theorem set_equal_probabilities_values {σ ε : Type} [DecidableEq σ] [DecidableEq ε]
    (b : MarkovModelBuilder σ ε) :
    (∀ s ∈ b.state_alphabet,
        alookup (set_equal_probabilities b).initial_prob s =
          some (1 / (b.state_alphabet.length : ℚ))) ∧
    (∀ e ∈ b.transition_prob,
        alookup (set_equal_probabilities b).transition_prob e.1 =
          some (1 / (b.transition_prob.length : ℚ))) ∧
    (∀ e ∈ b.emission_prob,
        alookup (set_equal_probabilities b).emission_prob e.1 =
          some (1 / (b.emission_prob.length : ℚ))) := by
  refine ⟨fun s hs => ?_, fun e he => ?_, fun e he => ?_⟩
  · exact alookup_map_self b.state_alphabet _ s hs
  · exact alookup_map_const b.transition_prob _ e he
  · exact alookup_map_const b.emission_prob _ e he

/-- Witness for claim C2 (amended): at the builder of
test_set_equal_probabilities, the allowed transition (1, 2) receives one
over the total number of allowed transitions, which is 1/2. -/
theorem set_equal_probabilities_values_witness :
    ((("1", "2"), (1 : ℚ)/20) ∈ equalPreBuilder.transition_prob ∧
      equalPreBuilder.transition_prob.length = 2) ∧
    alookup (set_equal_probabilities equalPreBuilder).transition_prob ("1", "2") =
      some (1 / (equalPreBuilder.transition_prob.length : ℚ)) :=
  ⟨by norm_num +decide [equalPreBuilder, mkBuilder],
    (set_equal_probabilities_values equalPreBuilder).2.1 (("1", "2"), 1/20)
      (by norm_num +decide [equalPreBuilder, mkBuilder])⟩

/-- Counterexample for claim C3: the model finalized by the setUp of
ScaledDPAlgorithmsTest (all transitions allowed, then
set_equal_probabilities) carries emission probability 1/4 on each of its
four emission pairs, so the emission row of state 1 sums to 1/2, not 1,
although the model is produced by get_markov_model. -/
theorem emission_row_sum_counterexample :
    ("1" : String) ∈ scaledDPModel.state_alphabet ∧
    emissionRowSum scaledDPModel "1" = 1/2 ∧ ((1 : ℚ)/2) ≠ 1 := by
  refine ⟨?_, ?_, ?_⟩ <;>
    norm_num +decide [scaledDPModel, scaledDPBuilder, get_markov_model,
      set_equal_probabilities, allow_all_transitions, mkBuilder, emissionRowSum,
      HiddenMarkovModel.emissionProb, alookupD, alookup, List.flatten]

/-- Claim C3 (amended): get_markov_model copies the emission table of the
builder unchanged, so the emission probabilities of a state of the
produced model sum to 1 over the emission alphabet exactly when the
corresponding row of the builder does; the unconditional invariant of
the claim fails for builders whose rows do not sum to 1 (see the
counterexample above). -/
theorem get_markov_model_emission_row {σ ε : Type} [DecidableEq σ] [DecidableEq ε]
    (b : MarkovModelBuilder σ ε) (s : σ)
    (h : builderEmissionRowSum b s = 1) :
    emissionRowSum (get_markov_model b) s = 1 := by
  simpa [emissionRowSum, builderEmissionRowSum, HiddenMarkovModel.emissionProb,
    get_markov_model] using h

/-- Witness for claim C3 (amended): the builder of test_non_ergodic has
an emission row of state 1 summing to 1, and so does the finalized
model. -/
theorem get_markov_model_emission_row_witness :
    builderEmissionRowSum nonErgodicBuilder "1" = 1 ∧
    emissionRowSum (get_markov_model nonErgodicBuilder) "1" = 1 :=
  ⟨by norm_num +decide [builderEmissionRowSum, nonErgodicBuilder, alookupD, alookup],
    get_markov_model_emission_row nonErgodicBuilder "1"
      (by norm_num +decide [builderEmissionRowSum, nonErgodicBuilder, alookupD, alookup])⟩

/-- Claim C4: for the non-ergodic model (initial probability 1 on state
1, transitions allowed only from state 1 with probability one half each,
emissions 0.95 / 0.05 and 0.05 / 0.95), decoding the observed sequence
A, B yields the state path 1, 2 with exact path probability 361/800 and
log probability exactly log 1 + log 0.95 + log 0.5 + log 0.95. -/
theorem viterbi_non_ergodic :
    nonErgodicModel.viterbi ["A", "B"] ["1", "2"] = some (["1", "2"], 361/800) ∧
    nonErgodicModel.viterbiLog ["A", "B"] ["1", "2"] =
      some (["1", "2"],
        ((Real.log 1 + Real.log 0.95 + Real.log 0.5 + Real.log 0.95 : ℝ) : EReal)) := by
  have hv : nonErgodicModel.viterbi ["A", "B"] ["1", "2"] = some (["1", "2"], 361/800) := by
    norm_num +decide [nonErgodicModel, nonErgodicBuilder, get_markov_model,
      HiddenMarkovModel.viterbi, viterbiTable, viterbiCell, viterbiStart, bestBy,
      HiddenMarkovModel.initialProb, HiddenMarkovModel.transitionProb,
      HiddenMarkovModel.emissionProb, alookupD, alookup, List.foldl]
  have hlog : elog (361/800) =
      ((Real.log 1 + Real.log 0.95 + Real.log 0.5 + Real.log 0.95 : ℝ) : EReal) := by
    rw [elog, if_neg (by norm_num)]
    norm_cast
    rw [show ((361/800 : ℚ) : ℝ) = 1 * (19/20) * (1/2) * (19/20) by norm_num]
    rw [Real.log_mul (by norm_num) (by norm_num), Real.log_mul (by norm_num) (by norm_num),
      Real.log_mul (by norm_num) (by norm_num)]
    norm_num
  refine ⟨hv, ?_⟩
  rw [HiddenMarkovModel.viterbiLog, hv, Option.map_some', hlog]

/-- Claim C5: set_initial_probabilities keeps every explicitly given
probability, gives every absent state the equal share
(1 - sum given) / (number of absent states), rejects a mapping whose
given probabilities sum to more than 1 with invalidProbability, and
rejects any reference to a state outside the alphabet. -/
theorem set_initial_probabilities_spec {σ ε : Type} [DecidableEq σ]
    (b : MarkovModelBuilder σ ε) (given : List (σ × ℚ))
    (hnd : (given.map Prod.fst).Nodup) :
    ((∀ k ∈ given.map Prod.fst, k ∈ b.state_alphabet) → probSum given ≤ 1 →
      ∃ b2, set_initial_probabilities b given = Except.ok b2 ∧
        (∀ e ∈ given, alookup b2.initial_prob e.1 = some e.2) ∧
        (∀ s ∈ b.state_alphabet, alookup given s = none →
          alookup b2.initial_prob s =
            some ((1 - probSum given) / ((absentCount b.state_alphabet given : ℚ))))) ∧
    ((∀ k ∈ given.map Prod.fst, k ∈ b.state_alphabet) → 1 < probSum given →
      set_initial_probabilities b given = Except.error HMMError.invalidProbability) ∧
    ((∃ k ∈ given.map Prod.fst, k ∉ b.state_alphabet) →
      set_initial_probabilities b given = Except.error HMMError.invalidState) := by
  refine ⟨?_, ?_, ?_⟩
  · intro hk hs
    unfold set_initial_probabilities
    rw [if_pos hk, if_neg (not_lt.2 hs)]
    refine ⟨_, rfl, ?_, ?_⟩
    · intro e he
      have hmem : e.1 ∈ b.state_alphabet := hk e.1 (List.mem_map.mpr ⟨e, he, rfl⟩)
      simp only []
      rw [alookup_map_self b.state_alphabet _ e.1 hmem,
        alookup_self_of_nodup given hnd e he]
    · intro s hs2 hnone
      simp only []
      rw [alookup_map_self b.state_alphabet _ s hs2, hnone]
  · intro hk hgt
    unfold set_initial_probabilities
    rw [if_pos hk, if_pos hgt]
  · rintro ⟨k, hk1, hk2⟩
    unfold set_initial_probabilities
    rw [if_neg]
    intro hall
    exact hk2 (hall k hk1)

/-- Witness for claim C5: on a fresh two-state builder with the partial
mapping sending state 1 to 1/5, the call succeeds, state 1 keeps 1/5 and
state 2 receives the residual share. -/
theorem set_initial_probabilities_spec_witness :
    (([("1", (1 : ℚ)/5)].map Prod.fst).Nodup ∧
      (∀ k ∈ [("1", (1 : ℚ)/5)].map Prod.fst,
        k ∈ (mkBuilder ["1", "2"] ["A", "B"] : MarkovModelBuilder String String).state_alphabet) ∧
      probSum [("1", (1 : ℚ)/5)] ≤ 1) ∧
    (∃ b2, set_initial_probabilities (mkBuilder ["1", "2"] ["A", "B"]) [("1", (1 : ℚ)/5)] =
        Except.ok b2 ∧
      (∀ e ∈ [("1", (1 : ℚ)/5)], alookup b2.initial_prob e.1 = some e.2) ∧
      (∀ s ∈ (mkBuilder ["1", "2"] ["A", "B"] : MarkovModelBuilder String String).state_alphabet,
        alookup [("1", (1 : ℚ)/5)] s = none →
        alookup b2.initial_prob s =
          some ((1 - probSum [("1", (1 : ℚ)/5)]) /
            ((absentCount
              (mkBuilder ["1", "2"] ["A", "B"] : MarkovModelBuilder String String).state_alphabet
              [("1", (1 : ℚ)/5)] : ℚ))))) :=
  ⟨⟨by norm_num +decide, by norm_num +decide [mkBuilder], by norm_num +decide [probSum]⟩,
    (set_initial_probabilities_spec (mkBuilder ["1", "2"] ["A", "B"]) [("1", (1 : ℚ)/5)]
        (by norm_num +decide)).1
      (by norm_num +decide [mkBuilder]) (by norm_num +decide [probSum])⟩

/-- Claim C6: for a count table with pairwise distinct keys, nonnegative
counts and strictly positive from-key group totals, ml_estimator assigns
each pair its count divided by the total of its from-key group.  The
nonnegativity and positivity premises mirror the claim; the division
itself is exact rational arithmetic. -/
theorem ml_estimator_conditional {κ : Type} [DecidableEq κ] (counts : List ((κ × κ) × ℚ))
    (hnd : (counts.map Prod.fst).Nodup)
    (_hnonneg : ∀ e ∈ counts, 0 ≤ e.2)
    (_hpos : ∀ e ∈ counts, 0 < groupTotal counts e.1.1) :
    ∀ e ∈ counts, alookup (ml_estimator counts) e.1 = some (e.2 / groupTotal counts e.1.1) := by
  intro e he
  unfold ml_estimator
  exact alookup_map_entry counts (fun x => x.2 / groupTotal counts x.1.1) hnd e he

/-- Witness for claim C6: on the count table of test_ml_estimator the
estimator returns 10/45, 20/45, 15/45, 5/5, 15/25 and 10/25, exactly the
values the visible test expects. -/
theorem ml_estimator_conditional_witness :
    ((mlTestCounts.map Prod.fst).Nodup ∧ (∀ e ∈ mlTestCounts, 0 ≤ e.2) ∧
      (∀ e ∈ mlTestCounts, 0 < groupTotal mlTestCounts e.1.1)) ∧
    (alookup (ml_estimator mlTestCounts) ("A", "A") = some (10/45) ∧
      alookup (ml_estimator mlTestCounts) ("A", "B") = some (20/45) ∧
      alookup (ml_estimator mlTestCounts) ("A", "C") = some (15/45) ∧
      alookup (ml_estimator mlTestCounts) ("B", "B") = some (5/5) ∧
      alookup (ml_estimator mlTestCounts) ("C", "A") = some (15/25) ∧
      alookup (ml_estimator mlTestCounts) ("C", "C") = some (10/25)) := by
  have hnd : (mlTestCounts.map Prod.fst).Nodup := by norm_num +decide [mlTestCounts]
  have hnn : ∀ e ∈ mlTestCounts, 0 ≤ e.2 := by norm_num +decide [mlTestCounts]
  have hps : ∀ e ∈ mlTestCounts, 0 < groupTotal mlTestCounts e.1.1 := by
    norm_num +decide [mlTestCounts, groupTotal]
  have h := ml_estimator_conditional mlTestCounts hnd hnn hps
  refine ⟨⟨hnd, hnn, hps⟩, ?_, ?_, ?_, ?_, ?_, ?_⟩
  · have := h (("A", "A"), 10) (by norm_num +decide [mlTestCounts])
    rw [this]; norm_num +decide [groupTotal, mlTestCounts]
  · have := h (("A", "B"), 20) (by norm_num +decide [mlTestCounts])
    rw [this]; norm_num +decide [groupTotal, mlTestCounts]
  · have := h (("A", "C"), 15) (by norm_num +decide [mlTestCounts])
    rw [this]; norm_num +decide [groupTotal, mlTestCounts]
  · have := h (("B", "B"), 5) (by norm_num +decide [mlTestCounts])
    rw [this]; norm_num +decide [groupTotal, mlTestCounts]
  · have := h (("C", "A"), 15) (by norm_num +decide [mlTestCounts])
    rw [this]; norm_num +decide [groupTotal, mlTestCounts]
  · have := h (("C", "C"), 10) (by norm_num +decide [mlTestCounts])
    rw [this]; norm_num +decide [groupTotal, mlTestCounts]

/-- Claim C7: constructing a TrainingSequence succeeds, storing both
sequences unchanged, exactly when the state sequence is empty or has the
length of the emission sequence, and fails with the length-mismatch
error exactly otherwise. -/
theorem trainingSequence_make_spec {ε σ : Type} (emissions : List ε) (states : List σ) :
    (TrainingSequence.make emissions states =
        Except.ok (⟨emissions, states⟩ : TrainingSequence ε σ) ↔
      (states = [] ∨ states.length = emissions.length)) ∧
    (TrainingSequence.make emissions states = Except.error HMMError.sequenceLengthMismatch ↔
      ¬(states = [] ∨ states.length = emissions.length)) := by
  have hiff : states.length = 0 ∨ states.length = emissions.length ↔
      states = [] ∨ states.length = emissions.length :=
    or_congr_left List.length_eq_zero
  unfold TrainingSequence.make
  split_ifs with hc
  · simp [hiff.mp hc]
  · simp [(not_congr hiff).mp hc]

/-- Claim C8: for every model and every query value, transitions_from and
transitions_to return exactly the allowed one-step successors and
predecessors of the query, and return an empty list, without any error,
whenever the query has no registered transition, including values
outside the state alphabet. -/
theorem transitions_from_to_spec {σ ε : Type} [DecidableEq σ]
    (m : HiddenMarkovModel σ ε) (q : σ) :
    (∀ s, s ∈ m.transitions_from q ↔ ∃ p, ((q, s), p) ∈ m.transition_prob) ∧
    (∀ s, s ∈ m.transitions_to q ↔ ∃ p, ((s, q), p) ∈ m.transition_prob) ∧
    ((∀ e ∈ m.transition_prob, e.1.1 ≠ q) → m.transitions_from q = []) ∧
    ((∀ e ∈ m.transition_prob, e.1.2 ≠ q) → m.transitions_to q = []) := by
  refine ⟨fun s => ?_, fun s => ?_, fun h => ?_, fun h => ?_⟩
  · unfold HiddenMarkovModel.transitions_from
    simp only [List.mem_map, List.mem_filter, decide_eq_true_eq]
    constructor
    · rintro ⟨e, ⟨he, hq⟩, hs⟩
      exact ⟨e.2, by rw [← hq, ← hs]; simpa using he⟩
    · rintro ⟨p, hp⟩
      exact ⟨((q, s), p), ⟨hp, rfl⟩, rfl⟩
  · unfold HiddenMarkovModel.transitions_to
    simp only [List.mem_map, List.mem_filter, decide_eq_true_eq]
    constructor
    · rintro ⟨e, ⟨he, hq⟩, hs⟩
      exact ⟨e.2, by rw [← hq, ← hs]; simpa using he⟩
    · rintro ⟨p, hp⟩
      exact ⟨((s, q), p), ⟨hp, rfl⟩, rfl⟩
  · unfold HiddenMarkovModel.transitions_from
    rw [List.filter_eq_nil_iff.mpr (fun e he => by simpa using h e he)]
    rfl
  · unfold HiddenMarkovModel.transitions_to
    rw [List.filter_eq_nil_iff.mpr (fun e he => by simpa using h e he)]
    rfl

/-- Witness for claim C8: on the model of test_transitions_from and
test_transitions_to, the unknown state Fake has no registered transition
and both neighbor queries return the empty list, while state 1 reaches
state 2. -/
theorem transitions_from_to_spec_witness :
    ((∀ e ∈ transTestModel.transition_prob, e.1.1 ≠ "Fake") ∧
      (∀ e ∈ transTestModel.transition_prob, e.1.2 ≠ "Fake")) ∧
    transTestModel.transitions_from "Fake" = [] ∧
    transTestModel.transitions_to "Fake" = [] ∧
    ("2" ∈ transTestModel.transitions_from "1" ↔
      ∃ p, (("1", "2"), p) ∈ transTestModel.transition_prob) := by
  have h1 : ∀ e ∈ transTestModel.transition_prob, e.1.1 ≠ "Fake" := by
    norm_num +decide [transTestModel]
  have h2 : ∀ e ∈ transTestModel.transition_prob, e.1.2 ≠ "Fake" := by
    norm_num +decide [transTestModel]
  exact ⟨⟨h1, h2⟩, (transitions_from_to_spec transTestModel "Fake").2.2.1 h1,
    (transitions_from_to_spec transTestModel "Fake").2.2.2 h2,
    (transitions_from_to_spec transTestModel "1").1 "2"⟩

/-- Claim C9: every invocation of bulk_download raises
NotImplementedError, issues no HTTP request, and produces no value;
get_readme is total over every outcome of its one GET call: a 2xx
response yields the body text, any other completed response yields the
status error string, and a failed request yields the request error
string, so neither an HTTP status error nor a request error escapes. -/
theorem afdb_bulk_download_get_readme_spec :
    bulk_download = Except.error PyError.notImplementedError ∧
    bulk_download_requests = [] ∧
    ∀ r : RequestResult,
      (∃ resp, r = RequestResult.ok resp ∧ 200 ≤ resp.statusCode ∧ resp.statusCode < 300 ∧
        get_readme r = resp.bodyText) ∨
      (∃ resp, r = RequestResult.ok resp ∧ ¬(200 ≤ resp.statusCode ∧ resp.statusCode < 300) ∧
        get_readme r =
          "Exception occured for fetching the README. " ++ statusMsg resp.statusCode) ∨
      (∃ msg, r = RequestResult.requestError msg ∧
        get_readme r = "Error occurred during the request: " ++ msg) := by
  refine ⟨rfl, rfl, fun r => ?_⟩
  cases r with
  | ok resp =>
    by_cases hs : 200 ≤ resp.statusCode ∧ resp.statusCode < 300
    · exact Or.inl ⟨resp, rfl, hs.1, hs.2,
        by simp [get_readme, awaitGet, raiseForStatus, handleHttpx, Except.instMonad,
          Except.bind, Except.map, Except.pure, hs.1, hs.2]⟩
    · exact Or.inr (Or.inl ⟨resp, rfl, hs,
        by simp [get_readme, awaitGet, raiseForStatus, handleHttpx, Except.instMonad,
          Except.bind, Except.map, Except.pure, hs]⟩)
  | requestError msg =>
    exact Or.inr (Or.inr ⟨msg, rfl,
      by simp [get_readme, awaitGet, handleHttpx, Except.instMonad,
        Except.bind, Except.map, Except.pure]⟩)

/-- Claim C10: in get_metadata_json the HTTPStatusError handler is dead
code: raise_for_status is never called, so every completed response,
whatever its status code, flows to the json call and never to an error
string, and the only reachable handler is the RequestError one. -/
theorem afdb_get_metadata_json_status_branch_dead :
    (∀ resp : HttpResponse,
      get_metadata_json (RequestResult.ok resp) = MetaResult.json resp.bodyJson) ∧
    (∀ (resp : HttpResponse) (s : String),
      get_metadata_json (RequestResult.ok resp) ≠ MetaResult.errText s) ∧
    (∀ msg : String, get_metadata_json (RequestResult.requestError msg) =
      MetaResult.errText ("Error occurred during the request: " ++ msg)) := by
  refine ⟨fun resp => rfl, fun resp s => ?_, fun msg => rfl⟩
  intro h
  simp [get_metadata_json, awaitGet, handleHttpx, Except.instMonad,
    Except.bind, Except.map, Except.pure] at h

/-- Witness for claim C7: the two-symbol emission sequence with a
matching two-state path is accepted and stored unchanged, while a
one-state path is rejected with the length-mismatch error, as in
TrainingSequenceTest. -/
theorem trainingSequence_make_spec_witness :
    TrainingSequence.make ["A", "B"] (["1", "2"] : List String) =
      Except.ok (⟨["A", "B"], ["1", "2"]⟩ : TrainingSequence String String) ∧
    TrainingSequence.make ["A", "B"] (["1"] : List String) =
      Except.error HMMError.sequenceLengthMismatch :=
  ⟨(trainingSequence_make_spec ["A", "B"] ["1", "2"]).1.mpr (Or.inr rfl),
    (trainingSequence_make_spec ["A", "B"] ["1"]).2.mpr (by simp)⟩

/-- Witness for claim C9: bulk_download fails with NotImplementedError,
and get_readme on a failed request returns the descriptive request error
string instead of raising. -/
theorem afdb_bulk_download_get_readme_spec_witness :
    bulk_download = Except.error PyError.notImplementedError ∧
    ((∃ resp, RequestResult.requestError "connection reset" = RequestResult.ok resp ∧
        200 ≤ resp.statusCode ∧ resp.statusCode < 300 ∧
        get_readme (RequestResult.requestError "connection reset") = resp.bodyText) ∨
      (∃ resp, RequestResult.requestError "connection reset" = RequestResult.ok resp ∧
        ¬(200 ≤ resp.statusCode ∧ resp.statusCode < 300) ∧
        get_readme (RequestResult.requestError "connection reset") =
          "Exception occured for fetching the README. " ++ statusMsg resp.statusCode) ∨
      (∃ msg, RequestResult.requestError "connection reset" = RequestResult.requestError msg ∧
        get_readme (RequestResult.requestError "connection reset") =
          "Error occurred during the request: " ++ msg)) :=
  ⟨afdb_bulk_download_get_readme_spec.1,
    afdb_bulk_download_get_readme_spec.2.2 (RequestResult.requestError "connection reset")⟩

/-- Witness for claim C10: a completed 404 response still flows to the
json call of get_metadata_json and does not produce the status handler
string. -/
theorem afdb_get_metadata_json_status_branch_dead_witness :
    get_metadata_json (RequestResult.ok ⟨404, "not found", "irrelevant"⟩) =
      MetaResult.json "irrelevant" ∧
    get_metadata_json (RequestResult.ok ⟨404, "not found", "irrelevant"⟩) ≠
      MetaResult.errText ("Exception occured for fetching the README. " ++ statusMsg 404) :=
  ⟨afdb_get_metadata_json_status_branch_dead.1 ⟨404, "not found", "irrelevant"⟩,
    afdb_get_metadata_json_status_branch_dead.2.1 ⟨404, "not found", "irrelevant"⟩ _⟩
